import Mathlib

/-!
Shallow embedding of `votter.go` (plastic-plant/votter), a one-shot converter
from a directory tree of labeled images to a VoTT annotation JSON document.

Modelling conventions:
* Go strings are Lean `String`, Go `int` values appearing here (pixel sizes,
  exit codes, state/type flags) are `Nat` (all are non-negative in this program).
* Filesystem paths are lists of segments (`List String`); `filepath.Join` is
  list append.  The source path handed to the scanner is assumed absolute, so
  `filepath.Abs` is the identity on it (no claim exercises `Abs`).
* The directory walk done by Go's `filepath.Walk` (a stdlib routine) is
  represented by its visit sequence: a `FileSys` lists every visited directory
  (root first, path `[]`) in walk order (lexical, parents before children, the
  order `filepath.Walk` guarantees), each with the plain file names directly
  inside it (in `ioutil.ReadDir`'s sorted order).
* `uuid.New().String()` yields fresh identifiers; it is modelled by a counter
  threaded through the asset/region builders (`uuid n` below).
* `encoding/json` marshalling is modelled by `Json` trees: a struct marshals
  to an object whose keys are the struct tags in field order; an exported
  field without a tag (the `Label` field of `Asset`) marshals under its Go
  field name; a Go map marshals with its keys sorted.
-/

namespace Votter

/-! ## Data model (votter.go lines 32-99) -/

structure VideoSettings where
  frameExtractionRate : Nat
  deriving DecidableEq, Repr

structure Tag where
  name : String
  color : String
  deriving DecidableEq, Repr

structure ActiveLearningSettings where
  autoDetect : Bool
  predictTag : Bool
  modelPathType : String
  deriving DecidableEq, Repr

structure Size where
  width : Nat
  height : Nat
  deriving DecidableEq, Repr

/-- Go struct `Asset`.  Every field except `label` carries a json tag; `Label`
is exported and untagged, so `encoding/json` still serializes it (under the
key `"Label"`). -/
structure Asset where
  format : String
  id : String
  name : String
  path : String
  size : Size
  state : Nat
  type : Nat
  label : String
  deriving DecidableEq, Repr

structure Point where
  x : Nat
  y : Nat
  deriving DecidableEq, Repr

structure BoundingBox where
  height : Nat
  width : Nat
  left : Nat
  top : Nat
  deriving DecidableEq, Repr

structure Region where
  id : String
  type : String
  tags : List String
  boundingBox : BoundingBox
  points : List Point
  deriving DecidableEq, Repr

structure AssetDetail where
  asset : Asset
  regions : List Region
  version : String
  deriving DecidableEq, Repr

/-- Go struct `VottJsonModel`.  `Assets` is a Go `map[string]AssetDetail`;
it is modelled as an association list with unique keys (`insertOverwrite`
below implements map assignment). -/
structure VottJsonModel where
  name : String
  securityToken : String
  videoSettings : VideoSettings
  tags : List Tag
  id : String
  activeLearningSettings : ActiveLearningSettings
  version : String
  lastVisitedAssetId : String
  assets : List (String × AssetDetail)
  deriving DecidableEq, Repr

/-! ## Constants (votter.go lines 24-30) -/

def Version : String := "1"

def OptionalPathToImagesDefault : String := "."

def OptionalAnnotationsFilenameDefault : String := "vott-coco-annotations.json"

def ExitSuccesful : Nat := 0

def ExitImagesFolderNotFound : Nat := 1

def ExitImagesFolderEmpty : Nat := 2

def ExitAnnotationsFolderNotFound : Nat := 3

/-! ## Association-list model of a Go `map[string]V` -/

/-- Go map assignment `m[k] = v`: replace the binding if the key is present,
otherwise add it. -/
def insertOverwrite {α : Type} : List (String × α) → String → α → List (String × α)
  | [], k, v => [(k, v)]
  | p :: rest, k, v => if p.1 = k then (k, v) :: rest else p :: insertOverwrite rest k v

/-- Go map read `m[k]`. -/
def lookupAssoc {α : Type} (m : List (String × α)) (k : String) : Option α :=
  (m.find? (fun p => p.1 == k)).map (fun p => p.2)

/-! ## String helpers used by the Go code -/

/-- `filepath.Ext`: the suffix beginning at the final dot of the file name
(the names reaching it here are plain base names, no separators); empty if
there is no dot. -/
def extOf (s : String) : String :=
  let rev := s.data.reverse
  if rev.contains '.' then String.mk ('.' :: (rev.takeWhile (fun c => c ≠ '.')).reverse)
  else ""

/-- `strings.TrimPrefix(s, ".")`: drop one leading dot if present. -/
def trimDot (s : String) : String :=
  match s.data with
  | '.' :: rest => String.mk rest
  | _ => s

/-- `uuid.New().String()`, modelled as a deterministic stream of distinct
identifiers indexed by a counter. -/
def uuid (n : Nat) : String := "uuid-" ++ Nat.repr n

/-! ## Scanner (votter.go lines 184-239) -/

/-- The visit sequence of `filepath.Walk` over the source tree: every visited
directory, root first with path `[]`, in walk order, with the file names it
directly contains (in `ReadDir`'s sorted order).  Paths are segment lists
relative to the walk root. -/
abbrev FileSys := List (List String × List String)

/-- ASCII case folding of one character (`strings.ToLower` restricted to the
ASCII range actually exercised by file extensions). -/
def lowerChar (c : Char) : Char :=
  if c = 'A' then 'a' else if c = 'B' then 'b' else if c = 'C' then 'c'
  else if c = 'D' then 'd' else if c = 'E' then 'e' else if c = 'F' then 'f'
  else if c = 'G' then 'g' else if c = 'H' then 'h' else if c = 'I' then 'i'
  else if c = 'J' then 'j' else if c = 'K' then 'k' else if c = 'L' then 'l'
  else if c = 'M' then 'm' else if c = 'N' then 'n' else if c = 'O' then 'o'
  else if c = 'P' then 'p' else if c = 'Q' then 'q' else if c = 'R' then 'r'
  else if c = 'S' then 's' else if c = 'T' then 't' else if c = 'U' then 'u'
  else if c = 'V' then 'v' else if c = 'W' then 'w' else if c = 'X' then 'x'
  else if c = 'Y' then 'y' else if c = 'Z' then 'z' else c

/-- `strings.ToLower`. -/
def lowerStr (s : String) : String := String.mk (s.data.map lowerChar)

/-- `isImage`: extension test, case-insensitive. -/
def isImage (filename : String) : Bool :=
  let e := lowerStr (extOf filename)
  e == ".png" || e == ".jpg" || e == ".jpeg" || e == ".gif" || e == ".bmp"

/-- `listImages`: the image files (by extension) directly inside a directory. -/
def listImages (files : List String) : List String :=
  files.filter (fun f => isImage f)

/-- Base name of a directory path (`filepath.Base`). -/
def lastName : List String → String
  | [] => ""
  | [x] => x
  | _ :: xs => lastName xs

/-- The directories `findImages` labels: every walked directory other than the
root, reduced to (base name, contained files), in walk order. -/
def scannedDirs (fsys : FileSys) : List (String × List String) :=
  (fsys.filter (fun d => !d.1.isEmpty)).map (fun d => (lastName d.1, d.2))

/-- The accumulation loop of `findImages`: for each visited directory, if it
directly contains images, `labels[base] = images`. -/
def buildLabelsFrom (m : List (String × List String)) :
    List (String × List String) → List (String × List String)
  | [] => m
  | e :: rest =>
    let imgs := listImages e.2
    buildLabelsFrom (if imgs.isEmpty then m else insertOverwrite m e.1 imgs) rest

/-- `findImages`: the label-to-images map it builds (the empty-map check and
its `os.Exit` live in the pipeline below, as in the source). -/
def findImagesMap (fsys : FileSys) : List (String × List String) :=
  buildLabelsFrom [] (scannedDirs fsys)

/-! ## Asset builder (votter.go lines 241-280) -/

/-- The asset record built for one image (loop body of `generateVottEntries`).
`fmt := TrimPrefix(Ext(name), ".")` — note: no lowercasing.  The path field is
`"file:" + ToSlash(Abs(join))`; the source path is taken absolute already. -/
def mkAsset (src : List String) (label f : String) (w h : Nat) (k : Nat) : Asset :=
  { format := trimDot (extOf f)
    id := uuid k
    name := f
    path := "file:" ++ String.intercalate "/" (src ++ [label, f])
    size := { width := w, height := h }
    state := 0
    type := 0
    label := label }

/-- Opening plus `image.DecodeConfig` of the file at a path: `some (w, h)` on
success, `none` when the open or the header decode fails. -/
abbrev DecodeFn := List String → Option (Nat × Nat)

/-- Inner loop of `generateVottEntries` over one label's image list; returns
the assets and the advanced uuid counter, or the path of the first image whose
open/decode failed. -/
def generateVottFiles (src : List String) (fs : DecodeFn) (label : String) :
    List String → Nat → Except (List String) (List Asset × Nat)
  | [], k => .ok ([], k)
  | f :: rest, k =>
    match fs (src ++ [label, f]) with
    | none => .error (src ++ [label, f])
    | some wh =>
      match generateVottFiles src fs label rest (k + 1) with
      | .error e => .error e
      | .ok (as, k2) => .ok (mkAsset src label f wh.1 wh.2 k :: as, k2)

/-- `generateVottEntries`: iterate the label map, building one asset per image;
any open/decode error aborts with that image's path (no per-asset skip). -/
def generateVottEntries (src : List String) (fs : DecodeFn) :
    List (String × List String) → Nat → Except (List String) (List Asset)
  | [], _ => .ok []
  | e :: rest, k =>
    match generateVottFiles src fs e.1 e.2 k with
    | .error p => .error p
    | .ok (as, k2) =>
      match generateVottEntries src fs rest k2 with
      | .error p => .error p
      | .ok bs => .ok (as ++ bs)

/-! ## Document writer (votter.go lines 282-320) -/

/-- The region built for one asset in `writeVottJSON`. -/
def mkRegion (rid : String) (a : Asset) : Region :=
  { id := rid
    type := "RECTANGLE"
    tags := [a.label]
    boundingBox := { height := a.size.height, width := a.size.width, left := 0, top := 0 }
    points := [{ x := 0, y := 0 }, { x := a.size.width, y := a.size.height }] }

/-- The `AssetDetail` stored under an asset's id in `writeVottJSON`. -/
def mkDetail (rid : String) (a : Asset) : AssetDetail :=
  { asset := a, regions := [mkRegion rid a], version := "2.2.0" }

/-- `model.Assets[asset.ID] = assetDetail` over the asset list, fresh region
uuids from the counter. -/
def insertAssets : List Asset → Nat → List (String × AssetDetail) → List (String × AssetDetail)
  | [], _, m => m
  | a :: rest, k, m => insertAssets rest (k + 1) (insertOverwrite m a.id (mkDetail (uuid k) a))

def mkTag (label : String) : Tag := { name := label, color := "#ff0000" }

/-- `writeVottJSON`: assemble the document (the serialize-and-write step is
modelled by `encodeModel` below and the pipeline's `written` field). -/
def writeVottJSON (assets : List Asset) (tags : List String) (k : Nat) : VottJsonModel :=
  { name := ""
    securityToken := ""
    videoSettings := { frameExtractionRate := 0 }
    tags := tags.map mkTag
    id := ""
    activeLearningSettings := { autoDetect := false, predictTag := true, modelPathType := "coco" }
    version := "2.2.0"
    lastVisitedAssetId := ""
    assets := insertAssets assets k [] }

/-! ## JSON marshalling (`encoding/json` over the struct tags above) -/

inductive Json where
  | null : Json
  | str : String → Json
  | num : Nat → Json
  | bool : Bool → Json
  | arr : List Json → Json
  | obj : List (String × Json) → Json

def encodeSize (s : Size) : Json :=
  .obj [("width", .num s.width), ("height", .num s.height)]

/-- Marshalling of `Asset`: the seven tagged fields in struct order, then the
untagged exported field `Label` under its Go field name. -/
def encodeAsset (a : Asset) : Json :=
  .obj [("format", .str a.format), ("id", .str a.id), ("name", .str a.name),
        ("path", .str a.path), ("size", encodeSize a.size), ("state", .num a.state),
        ("type", .num a.type), ("Label", .str a.label)]

def encodePoint (p : Point) : Json :=
  .obj [("x", .num p.x), ("y", .num p.y)]

def encodeBoundingBox (b : BoundingBox) : Json :=
  .obj [("height", .num b.height), ("width", .num b.width),
        ("left", .num b.left), ("top", .num b.top)]

def encodeRegion (r : Region) : Json :=
  .obj [("id", .str r.id), ("type", .str r.type),
        ("tags", .arr (r.tags.map Json.str)),
        ("boundingBox", encodeBoundingBox r.boundingBox),
        ("points", .arr (r.points.map encodePoint))]

def encodeDetail (d : AssetDetail) : Json :=
  .obj [("asset", encodeAsset d.asset),
        ("regions", .arr (d.regions.map encodeRegion)),
        ("version", .str d.version)]

def encodeTag (t : Tag) : Json :=
  .obj [("name", .str t.name), ("color", .str t.color)]

/-- Go marshals a map with its keys in sorted order. -/
def sortByKey (l : List (String × AssetDetail)) : List (String × AssetDetail) :=
  List.insertionSort (fun p q => p.1 < q.1) l

def encodeModel (m : VottJsonModel) : Json :=
  .obj [("name", .str m.name),
        ("securityToken", .str m.securityToken),
        ("videoSettings", .obj [("frameExtractionRate", .num m.videoSettings.frameExtractionRate)]),
        ("tags", .arr (m.tags.map encodeTag)),
        ("id", .str m.id),
        ("activeLearningSettings",
          .obj [("autoDetect", .bool m.activeLearningSettings.autoDetect),
                ("predictTag", .bool m.activeLearningSettings.predictTag),
                ("modelPathType", .str m.activeLearningSettings.modelPathType)]),
        ("version", .str m.version),
        ("lastVisitedAssetId", .str m.lastVisitedAssetId),
        ("assets", .obj ((sortByKey m.assets).map (fun p => (p.1, encodeDetail p.2))))]

/-! ## Reading the written JSON back (what `json.Unmarshal` observes) -/

def lookupField (j : Json) (k : String) : Option Json :=
  match j with
  | .obj fields => (fields.find? (fun p => p.1 == k)).map (fun p => p.2)
  | _ => none

def topKeys (j : Json) : List String :=
  match j with
  | .obj fields => fields.map (fun p => p.1)
  | _ => []

/-- Unmarshalling a JSON object into a Go map keeps one entry per distinct
key, so the parsed asset count is the number of distinct keys. -/
def countKeys (j : Json) : Option Nat :=
  match j with
  | .obj fields => some ((fields.map (fun p => p.1)).dedup.length)
  | _ => none

def parsedAssetCount (j : Json) : Option Nat :=
  (lookupField j "assets").bind countKeys

def parsedTagCount (j : Json) : Option Nat :=
  match lookupField j "tags" with
  | some (.arr xs) => some xs.length
  | _ => none

/-- The asset-object field set documented by the spec's output schema (§6). -/
def specAssetFields : List String :=
  ["format", "id", "name", "path", "size", "state", "type"]

/-! ## Flag parsing (Go `flag` package, flags `-v` and `-h`, votter.go 106-118)

`flag.Parse` with the default `ExitOnError` handling: an undefined flag or a
bad boolean value prints usage and exits with code 2; the special undefined
name `help` raises `ErrHelp`, which exits with code 0. -/

inductive FlagsResult where
  | ok (v h : Bool) (rest : List String)
  | badFlag
  | helpRequested
  deriving DecidableEq, Repr

/-- `strconv.ParseBool`, as used for an explicit `-v=value`. -/
def parseBoolStr (v : String) : Option Bool :=
  if v = "1" ∨ v = "t" ∨ v = "T" ∨ v = "true" ∨ v = "TRUE" ∨ v = "True" then some true
  else if v = "0" ∨ v = "f" ∨ v = "F" ∨ v = "false" ∨ v = "FALSE" ∨ v = "False" then some false
  else none

/-- One step per argument, following `flag.(*FlagSet).parseOne`: stop at the
first non-flag argument or at `--`; strip one or two minuses; reject bad
syntax; split `name=value`; defined flags are the booleans `v` and `h`. -/
def parseFlagsAux : Bool → Bool → List String → FlagsResult
  | v, h, [] => .ok v h []
  | v, h, s :: rest =>
    match s.data with
    | [] => .ok v h (s :: rest)
    | [_] => .ok v h (s :: rest)
    | c0 :: c1 :: cs =>
      if c0 ≠ '-' then .ok v h (s :: rest)
      else if c1 = '-' ∧ cs = [] then .ok v h rest
      else
        let body := if c1 = '-' then cs else c1 :: cs
        match body with
        | [] => .badFlag
        | b0 :: _ =>
          if b0 = '-' ∨ b0 = '=' then .badFlag
          else
            let name := body.takeWhile (fun c => c ≠ '=')
            let valOpt : Option String :=
              if body.contains '=' then
                some (String.mk ((body.dropWhile (fun c => c ≠ '=')).drop 1))
              else none
            if name = ['v'] then
              match valOpt with
              | none => parseFlagsAux true h rest
              | some val =>
                match parseBoolStr val with
                | some b => parseFlagsAux b h rest
                | none => .badFlag
            else if name = ['h'] then
              match valOpt with
              | none => parseFlagsAux v true rest
              | some val =>
                match parseBoolStr val with
                | some b => parseFlagsAux v b rest
                | none => .badFlag
            else if name = "help".data then .helpRequested
            else .badFlag

def parseFlags (args : List String) : FlagsResult :=
  parseFlagsAux false false args

/-! ## The program (votter.go `main`, lines 101-182) -/

/-- What a run observably does: the process exit code, the lines printed, and
the document written to the destination (if any). -/
structure Outcome where
  exitCode : Nat
  printed : List String
  written : Option VottJsonModel
  deriving DecidableEq, Repr

/-- The host environment a run sees: whether a path string names a directory,
and — for the source path — its walk sequence, its segment form, and the
open/decode behavior of files under it; `writeOk` is whether the final file
write succeeds. -/
structure Env where
  isDir : String → Bool
  sysAt : String → FileSys
  segsAt : String → List String
  fsAt : DecodeFn
  writeOk : Bool

/-- Positional argument resolution: first argument is the images path. -/
def resolveImagesPath (args : List String) : String :=
  match args with
  | [] => OptionalPathToImagesDefault
  | p :: _ => p

/-- Second positional argument (only when exactly two are given). -/
def resolveAnnotationsFile (args : List String) : String :=
  match args with
  | [_, a] => a
  | _ => OptionalAnnotationsFilenameDefault

/-- `filepath.Dir`, simplified to slash-separated paths without the `Clean`
normalization (no claim depends on its exact value: `main` only feeds it to
the environment's directory test). -/
def dirOf (p : String) : String :=
  let parts := p.splitOn "/"
  if parts.length ≤ 1 then "." else String.intercalate "/" parts.dropLast

def usageMsg : String := "Usage of votter"

def emptyMsg : String := "Error: No images found in subdirectories."

/-- The open/decode error printed for a failing image path. -/
def pathErrMsg (p : List String) : String :=
  "open " ++ String.intercalate "/" p ++ ": no such file or directory"

/-- The per-image lines `main` prints before writing. -/
def infoLines (m : List (String × List String)) : List String :=
  m.flatMap (fun e => e.2.map (fun img =>
    "Label \x27" ++ e.1 ++ "\x27 for image \x27" ++ img ++ "\x27."))

/-- Steps 2 and 3 of `main` (after path validation): scan, build, print, write.
The empty-map report and `os.Exit(ExitImagesFolderEmpty)` happen inside
`findImages` in the source; they surface here as the first branch. -/
def runPipeline (src : List String) (fsys : FileSys) (fs : DecodeFn) (writeOk : Bool) : Outcome :=
  let m := findImagesMap fsys
  if m.isEmpty then
    { exitCode := ExitImagesFolderEmpty, printed := [emptyMsg], written := none }
  else
    let labels := m.map (fun e => e.1)
    match generateVottEntries src fs m 0 with
    | .error p =>
      { exitCode := ExitImagesFolderEmpty, printed := [pathErrMsg p], written := none }
    | .ok entries =>
      if writeOk then
        { exitCode := ExitSuccesful, printed := infoLines m,
          written := some (writeVottJSON entries labels entries.length) }
      else
        { exitCode := ExitImagesFolderNotFound, printed := infoLines m ++ ["write error"],
          written := none }

/-- `main`: flag handling, positional arguments, path validation, then the
pipeline. -/
def mainOutcome (args : List String) (env : Env) : Outcome :=
  match parseFlags args with
  | .badFlag => { exitCode := 2, printed := [usageMsg], written := none }
  | .helpRequested => { exitCode := 0, printed := [usageMsg], written := none }
  | .ok v h rest =>
    if v then { exitCode := 0, printed := [Version], written := none }
    else if h then { exitCode := 0, printed := [usageMsg], written := none }
    else
      let imagesPath := resolveImagesPath rest
      let annFile := resolveAnnotationsFile rest
      if env.isDir imagesPath then
        if env.isDir (dirOf annFile) then
          runPipeline (env.segsAt imagesPath) (env.sysAt imagesPath) env.fsAt env.writeOk
        else
          { exitCode := ExitAnnotationsFolderNotFound,
            printed := ["Error: Cannot write annotations to directory \x27" ++ annFile ++ "\x27"],
            written := none }
      else
        { exitCode := ExitImagesFolderNotFound,
          printed := ["Error: \x27" ++ imagesPath ++ "\x27 is not an existing directory"],
          written := none }

/-! ## Auxiliary observations used by the claims -/

/-- The path of the first image (in iteration order) whose open/decode fails,
if any. -/
def firstFailurePath (src : List String) (fs : DecodeFn) :
    List (String × List String) → Option (List String)
  | [] => none
  | e :: rest =>
    match e.2.find? (fun f => (fs (src ++ [e.1, f])).isNone) with
    | some f => some (src ++ [e.1, f])
    | none => firstFailurePath src fs rest

/-- The relative paths of all files the walked tree actually contains. -/
def filePaths (fsys : FileSys) : List (List String) :=
  fsys.flatMap (fun d => d.2.map (fun f => d.1 ++ [f]))

/-- The open/decode function realized by the walked tree itself: a path under
`src` succeeds iff the tree really has a file there, with dimensions given by
the oracle `dims`. -/
def fsOf (src : List String) (fsys : FileSys) (dims : List String → Nat × Nat) : DecodeFn :=
  fun p =>
    if p.take src.length = src ∧ (p.drop src.length) ∈ filePaths fsys then
      some (dims (p.drop src.length))
    else none

/-! ## Concrete inputs used to instantiate the theorems below -/

/-- An environment whose paths all validate; used when only the flag handling
matters. -/
def envSimple : Env :=
  { isDir := fun _ => true, sysAt := fun _ => [], segsAt := fun _ => [],
    fsAt := fun _ => none, writeOk := true }

/-- A source tree with one subdirectory holding no image. -/
def env3 : Env :=
  { isDir := fun _ => true, sysAt := fun _ => [([], []), (["sub"], ["readme.txt"])],
    segsAt := fun _ => ["d"], fsAt := fun _ => none, writeOk := true }

/-- A source tree with one image whose open/decode fails. -/
def env4 : Env :=
  { isDir := fun _ => true, sysAt := fun _ => [([], []), (["cat"], ["a.jpg"])],
    segsAt := fun _ => ["d"], fsAt := fun _ => none, writeOk := true }

/-- A source tree with one image that decodes to 2x3. -/
def env7 : Env :=
  { isDir := fun _ => true, sysAt := fun _ => [([], []), (["cat"], ["a.jpg"])],
    segsAt := fun _ => ["d"], fsAt := fun _ => some (2, 3), writeOk := true }

def aTest : Asset :=
  { format := "jpg", id := "id1", name := "image1.jpg", path := "file:/path/to/image1.jpg",
    size := { width := 100, height := 200 }, state := 0, type := 0, label := "class_name" }

/-- Decode oracle knowing only `d/lbl/PHOTO.JPG`. -/
def fsJPG : DecodeFn :=
  fun p => if p = ["d", "lbl", "PHOTO.JPG"] then some (3, 4) else none

/-- The asset the builder produces for `PHOTO.JPG`. -/
def assetPHOTO : Asset := mkAsset ["d"] "lbl" "PHOTO.JPG" 3 4 0

/-- Two supplied assets sharing one id. -/
def assetDup : Asset :=
  { format := "jpg", id := "id1", name := "n.jpg", path := "file:/p/n.jpg",
    size := { width := 100, height := 200 }, state := 0, type := 0, label := "class" }

/-- A walk with a directory `a/b` nested two levels deep holding `x.jpg`. -/
def fsys9 : FileSys := [([], []), (["a"], []), (["a", "b"], ["x.jpg"])]

def dims9 : List String → Nat × Nat := fun _ => (1, 1)

/-- A walk with two directories `a/x` and `b/x` sharing the base name `x`. -/
def fsys10 : FileSys :=
  [([], []), (["a"], []), (["a", "x"], ["1.jpg"]), (["b"], []), (["b", "x"], ["2.jpg"])]

/-- The document produced from no assets and no tags (used as an `Option`
default when instantiating theorems). -/
def emptyModel : VottJsonModel := writeVottJSON [] [] 0

/-! # Lemmas about the map model -/

theorem lookupAssoc_insertOverwrite_self {α : Type} (m : List (String × α)) (k : String) (v : α) :
    lookupAssoc (insertOverwrite m k v) k = some v := by
  induction m with
  | nil => simp [insertOverwrite, lookupAssoc]
  | cons p rest ih =>
    by_cases hp : p.1 = k
    · simp [insertOverwrite, hp, lookupAssoc]
    · simpa [insertOverwrite, hp, lookupAssoc] using ih

theorem lookupAssoc_insertOverwrite_ne {α : Type} (m : List (String × α)) (k n : String) (v : α)
    (h : k ≠ n) : lookupAssoc (insertOverwrite m k v) n = lookupAssoc m n := by
  induction m with
  | nil => simp [insertOverwrite, lookupAssoc, h]
  | cons p rest ih =>
    by_cases hp : p.1 = k
    · simp [insertOverwrite, hp, lookupAssoc, h, hp ▸ h]
    · by_cases hn : p.1 = n
      · simp [insertOverwrite, hp, lookupAssoc, hn, Ne.symm h]
      · simpa [insertOverwrite, hp, lookupAssoc, hn] using ih

theorem mem_insertOverwrite {α : Type} (m : List (String × α)) (k : String) (v : α)
    (q : String × α) (h : q ∈ insertOverwrite m k v) : q = (k, v) ∨ q ∈ m := by
  induction m with
  | nil => simpa [insertOverwrite] using h
  | cons p rest ih =>
    by_cases hp : p.1 = k
    · simp only [insertOverwrite, hp, if_pos] at h
      rcases List.mem_cons.mp h with h1 | h2
      · exact Or.inl h1
      · exact Or.inr (List.mem_cons_of_mem _ h2)
    · simp only [insertOverwrite, hp, if_neg, not_false_iff] at h
      rcases List.mem_cons.mp h with h1 | h2
      · exact Or.inr (h1 ▸ List.mem_cons_self _ _)
      · rcases ih h2 with h3 | h4
        · exact Or.inl h3
        · exact Or.inr (List.mem_cons_of_mem _ h4)

theorem lookupAssoc_mem {α : Type} (m : List (String × α)) (k : String) (v : α)
    (h : lookupAssoc m k = some v) : (k, v) ∈ m := by
  unfold lookupAssoc at h
  cases hf : m.find? (fun p => p.1 == k) with
  | none => simp [hf] at h
  | some p =>
    simp only [hf, Option.map_some] at h
    have hpk : p.1 = k := by
      have := List.find?_some hf
      simpa using this
    have hpm : p ∈ m := List.mem_of_find?_eq_some hf
    have : (k, v) = p := by
      cases p with
      | mk a b => simp at h hpk; simp [hpk, h]
    exact this ▸ hpm

theorem keys_insertOverwrite_mem {α : Type} (m : List (String × α)) (k : String) (v : α)
    (h : k ∈ m.map (fun p => p.1)) :
    (insertOverwrite m k v).map (fun p => p.1) = m.map (fun p => p.1) := by
  induction m with
  | nil => simp at h
  | cons p rest ih =>
    by_cases hp : p.1 = k
    · simp [insertOverwrite, hp]
    · have : k ∈ rest.map (fun p => p.1) := by
        rcases List.mem_map.mp h with ⟨q, hq, hqk⟩
        rcases List.mem_cons.mp hq with h1 | h2
        · exact absurd (h1 ▸ hqk) hp
        · exact List.mem_map.mpr ⟨q, h2, hqk⟩
      simp [insertOverwrite, hp, ih this]

theorem keys_insertOverwrite_not_mem {α : Type} (m : List (String × α)) (k : String) (v : α)
    (h : k ∉ m.map (fun p => p.1)) :
    (insertOverwrite m k v).map (fun p => p.1) = m.map (fun p => p.1) ++ [k] := by
  induction m with
  | nil => simp [insertOverwrite]
  | cons p rest ih =>
    by_cases hp : p.1 = k
    · exact absurd (List.mem_map.mpr ⟨p, List.mem_cons_self _ _, hp⟩) h
    · have : k ∉ rest.map (fun q => q.1) := fun hk =>
        h (List.mem_map.mp hk |>.elim fun q ⟨hq, hqk⟩ =>
          List.mem_map.mpr ⟨q, List.mem_cons_of_mem _ hq, hqk⟩)
      simp [insertOverwrite, hp, ih this]

theorem nodup_keys_insertOverwrite {α : Type} (m : List (String × α)) (k : String) (v : α)
    (h : (m.map (fun p => p.1)).Nodup) :
    ((insertOverwrite m k v).map (fun p => p.1)).Nodup := by
  by_cases hk : k ∈ m.map (fun p => p.1)
  · rw [keys_insertOverwrite_mem m k v hk]; exact h
  · rw [keys_insertOverwrite_not_mem m k v hk]
    have hk' : ∀ x : α, (k, x) ∉ m := fun x hx => hk (List.mem_map.mpr ⟨(k, x), hx, rfl⟩)
    simp only [List.nodup_append, List.nodup_singleton, List.disjoint_singleton, true_and]
    refine ⟨h, ?_⟩
    simpa using hk

/-! # Lemmas about the asset map built by `writeVottJSON` -/

theorem mem_insertAssets (assets : List Asset) (k : Nat) (m : List (String × AssetDetail))
    (q : String × AssetDetail) (h : q ∈ insertAssets assets k m) :
    (∃ j a, a ∈ assets ∧ q = (a.id, mkDetail (uuid j) a)) ∨ q ∈ m := by
  induction assets generalizing k m with
  | nil => exact Or.inr (by simpa [insertAssets] using h)
  | cons a rest ih =>
    simp only [insertAssets] at h
    rcases ih (k + 1) _ h with ⟨j, b, hb, hq⟩ | hm
    · exact Or.inl ⟨j, b, List.mem_cons_of_mem _ hb, hq⟩
    · rcases mem_insertOverwrite _ _ _ _ hm with h1 | h2
      · exact Or.inl ⟨k, a, List.mem_cons_self _ _, h1⟩
      · exact Or.inr h2

/-! # Claim theorems -/

/-- Claim C1 (code_bug): the claim — and the spec's schema — say the
serialized asset object holds exactly the fields
format, id, name, path, size, state, type.  The code however marshals the
exported, untagged Go field `Label` too, so every asset object in the written
document carries an eighth field `"Label"`. -/
theorem c1_asset_object_leaks_Label_field (d : AssetDetail) :
    topKeys ((lookupField (encodeDetail d) "asset").getD Json.null) =
      specAssetFields ++ ["Label"] := rfl

/-- Claim C2: under each asset id, the written document holds exactly one
region, of type RECTANGLE, tagged with exactly the asset's label, whose
bounding box is (width, height, 0, 0) for the asset's size and whose points
are [(0,0), (W,H)]. -/
theorem c2_one_full_image_rectangle_region_per_asset_entry
    (assets : List Asset) (tags : List String) (k : Nat) (aid : String) (d : AssetDetail)
    (h : lookupAssoc (writeVottJSON assets tags k).assets aid = some d) :
    d.asset.id = aid ∧ ∃ rid, d.regions =
      [{ id := rid, type := "RECTANGLE", tags := [d.asset.label],
         boundingBox := { height := d.asset.size.height, width := d.asset.size.width,
                          left := 0, top := 0 },
         points := [{ x := 0, y := 0 },
                    { x := d.asset.size.width, y := d.asset.size.height }] }] := by
  have hmem : (aid, d) ∈ (writeVottJSON assets tags k).assets := lookupAssoc_mem _ _ _ h
  have : (∃ j a, a ∈ assets ∧ (aid, d) = (a.id, mkDetail (uuid j) a)) ∨
      (aid, d) ∈ ([] : List (String × AssetDetail)) := by
    exact mem_insertAssets assets k [] _ hmem
  rcases this with ⟨j, a, _, hq⟩ | hfalse
  · have haid : aid = a.id := congrArg Prod.fst hq
    have hd : d = mkDetail (uuid j) a := congrArg Prod.snd hq
    subst hd
    refine ⟨haid.symm, uuid j, ?_⟩
    simp [mkDetail, mkRegion]
  · simp at hfalse

/-- Witness for C2 at a concrete document. -/
theorem c2_witness :
    (mkDetail (uuid 0) aTest).asset.id = "id1" ∧ ∃ rid, (mkDetail (uuid 0) aTest).regions =
      [{ id := rid, type := "RECTANGLE", tags := [(mkDetail (uuid 0) aTest).asset.label],
         boundingBox := { height := (mkDetail (uuid 0) aTest).asset.size.height,
                          width := (mkDetail (uuid 0) aTest).asset.size.width,
                          left := 0, top := 0 },
         points := [{ x := 0, y := 0 },
                    { x := (mkDetail (uuid 0) aTest).asset.size.width,
                      y := (mkDetail (uuid 0) aTest).asset.size.height }] }] :=
  c2_one_full_image_rectangle_region_per_asset_entry [aTest] ["class_name"] 0 "id1"
    (mkDetail (uuid 0) aTest) rfl

theorem buildLabelsFrom_all_empty (m : List (String × List String))
    (l : List (String × List String)) (h : ∀ e ∈ l, listImages e.2 = []) :
    buildLabelsFrom m l = m := by
  induction l generalizing m with
  | nil => rfl
  | cons e rest ih =>
    have he : listImages e.2 = [] := h e (List.mem_cons_self _ _)
    simp only [buildLabelsFrom, he, List.isEmpty_nil, if_true]
    exact ih m (fun d hd => h d (List.mem_cons_of_mem _ hd))

/-- Claim C3: when no scanned subdirectory directly contains a qualifying
image, the run terminates with the images-folder-empty exit code (2) after
printing the report, and writes no output document. -/
theorem c3_no_images_exits_empty_code_and_writes_nothing
    (args : List String) (env : Env) (rest : List String)
    (hp : parseFlags args = .ok false false rest)
    (h1 : env.isDir (resolveImagesPath rest) = true)
    (h2 : env.isDir (dirOf (resolveAnnotationsFile rest)) = true)
    (h3 : ∀ d ∈ env.sysAt (resolveImagesPath rest), d.1 ≠ [] → listImages d.2 = []) :
    mainOutcome args env =
      { exitCode := ExitImagesFolderEmpty, printed := [emptyMsg], written := none } := by
  have hempty : findImagesMap (env.sysAt (resolveImagesPath rest)) = [] := by
    unfold findImagesMap
    apply buildLabelsFrom_all_empty
    intro e he
    simp only [scannedDirs] at he
    rcases List.mem_map.mp he with ⟨d, hd, hde⟩
    have hdm : d ∈ env.sysAt (resolveImagesPath rest) := List.mem_of_mem_filter hd
    have hdne : d.1 ≠ [] := by
      intro h0
      have := List.of_mem_filter hd
      rw [h0] at this
      simp at this
    have : e.2 = d.2 := by rw [← hde]
    rw [this]
    exact h3 d hdm hdne
  simp [mainOutcome, hp, h1, h2, runPipeline, hempty]

/-- Witness for C3: a tree whose only subdirectory holds no image. -/
theorem c3_witness : mainOutcome [] env3 =
    { exitCode := ExitImagesFolderEmpty, printed := [emptyMsg], written := none } :=
  c3_no_images_exits_empty_code_and_writes_nothing [] env3 [] rfl rfl rfl (by decide)

theorem generateVottFiles_ok (src : List String) (fs : DecodeFn) (label : String)
    (imgs : List String) (k : Nat)
    (h : imgs.find? (fun f => (fs (src ++ [label, f])).isNone) = none) :
    ∃ as k2, generateVottFiles src fs label imgs k = .ok (as, k2) := by
  induction imgs generalizing k with
  | nil => exact ⟨[], k, rfl⟩
  | cons f rest ih =>
    simp only [List.find?_cons] at h
    by_cases hf : (fs (src ++ [label, f])).isNone
    · simp [hf] at h
    · have hf' : (fs (src ++ [label, f])).isNone = false := Bool.eq_false_iff.mpr hf
      simp only [hf'] at h
      cases hwh : fs (src ++ [label, f]) with
      | none => rw [hwh] at hf'; simp at hf'
      | some wh => ?_
      rcases ih (k + 1) h with ⟨as, k2, hok⟩
      exact ⟨mkAsset src label f wh.1 wh.2 k :: as, k2, by
        simp [generateVottFiles, hwh, hok]⟩

theorem generateVottFiles_error (src : List String) (fs : DecodeFn) (label : String)
    (imgs : List String) (k : Nat) (f : String)
    (h : imgs.find? (fun g => (fs (src ++ [label, g])).isNone) = some f) :
    generateVottFiles src fs label imgs k = .error (src ++ [label, f]) := by
  induction imgs generalizing k with
  | nil => simp at h
  | cons g rest ih =>
    simp only [List.find?_cons] at h
    by_cases hg : (fs (src ++ [label, g])).isNone
    · simp only [hg] at h
      have hfg : g = f := by simpa using h
      subst hfg
      have hnone : fs (src ++ [label, g]) = none := Option.isNone_iff_eq_none.mp hg
      simp [generateVottFiles, hnone]
    · have hg' : (fs (src ++ [label, g])).isNone = false := Bool.eq_false_iff.mpr hg
      simp only [hg'] at h
      cases hwh : fs (src ++ [label, g]) with
      | none => rw [hwh] at hg'; simp at hg'
      | some wh => simp [generateVottFiles, hwh, ih (k + 1) h]

theorem generateVottEntries_error_of_firstFailure (src : List String) (fs : DecodeFn)
    (m : List (String × List String)) (p : List String)
    (h : firstFailurePath src fs m = some p) :
    ∀ k, generateVottEntries src fs m k = .error p := by
  induction m with
  | nil => simp [firstFailurePath] at h
  | cons e rest ih =>
    intro k
    unfold firstFailurePath at h
    cases hf : e.2.find? (fun f => (fs (src ++ [e.1, f])).isNone) with
    | some f =>
      rw [hf] at h
      have hpf : src ++ [e.1, f] = p := by simpa using h
      have := generateVottFiles_error src fs e.1 e.2 k f hf
      simp [generateVottEntries, this, hpf]
    | none =>
      rw [hf] at h
      rcases generateVottFiles_ok src fs e.1 e.2 k hf with ⟨as, k2, hok⟩
      simp [generateVottEntries, hok, ih h k2]

/-- Claim C4: if some image's open or header decode fails during asset
building, the run aborts at the first such image with the images-folder-empty
exit code (2) and writes no document, partial or complete. -/
theorem c4_decode_failure_aborts_run_without_output
    (args : List String) (env : Env) (rest : List String) (p : List String)
    (hp : parseFlags args = .ok false false rest)
    (h1 : env.isDir (resolveImagesPath rest) = true)
    (h2 : env.isDir (dirOf (resolveAnnotationsFile rest)) = true)
    (h3 : firstFailurePath (env.segsAt (resolveImagesPath rest)) env.fsAt
            (findImagesMap (env.sysAt (resolveImagesPath rest))) = some p) :
    mainOutcome args env =
      { exitCode := ExitImagesFolderEmpty, printed := [pathErrMsg p], written := none } := by
  have hne : findImagesMap (env.sysAt (resolveImagesPath rest)) ≠ [] := by
    intro h0
    rw [h0] at h3
    simp [firstFailurePath] at h3
  have hie : (findImagesMap (env.sysAt (resolveImagesPath rest))).isEmpty = false := by
    simpa [List.isEmpty_iff] using hne
  have herr := generateVottEntries_error_of_firstFailure _ _ _ _ h3 0
  simp [mainOutcome, hp, h1, h2, runPipeline, hie, herr]

/-- Witness for C4: one image whose open fails. -/
theorem c4_witness : mainOutcome [] env4 =
    { exitCode := ExitImagesFolderEmpty,
      printed := [pathErrMsg ["d", "cat", "a.jpg"]], written := none } :=
  c4_decode_failure_aborts_run_without_output [] env4 [] ["d", "cat", "a.jpg"]
    rfl rfl rfl rfl

theorem generateVottFiles_format (src : List String) (fs : DecodeFn) (label : String)
    (imgs : List String) : ∀ (k : Nat) (as : List Asset) (k2 : Nat),
    generateVottFiles src fs label imgs k = .ok (as, k2) →
    ∀ a ∈ as, a.format = trimDot (extOf a.name) := by
  induction imgs with
  | nil =>
    intro k as k2 h a ha
    simp only [generateVottFiles, Except.ok.injEq, Prod.mk.injEq] at h
    rw [← h.1] at ha
    simp at ha
  | cons f rest ih =>
    intro k as k2 h a ha
    unfold generateVottFiles at h
    cases hwh : fs (src ++ [label, f]) with
    | none => rw [hwh] at h; cases h
    | some wh =>
      rw [hwh] at h
      cases hrec : generateVottFiles src fs label rest (k + 1) with
      | error e => rw [hrec] at h; cases h
      | ok pr =>
        obtain ⟨as', k2'⟩ := pr
        rw [hrec] at h
        simp only [Except.ok.injEq, Prod.mk.injEq] at h
        rw [← h.1] at ha
        rcases List.mem_cons.mp ha with h1 | h2
        · subst h1; simp [mkAsset]
        · exact ih (k + 1) as' k2' hrec a h2

/-- Claim C5 (counterexample): the claim says the format attribute is the
extension lowercased; the builder does not lowercase, so `PHOTO.JPG` yields
format `"JPG"`, not `"jpg"` — even though the scanner accepted the file
case-insensitively. -/
theorem c5_counterexample_uppercase_format :
    isImage "PHOTO.JPG" = true ∧
    generateVottEntries ["d"] fsJPG [("lbl", ["PHOTO.JPG"])] 0 = .ok [assetPHOTO] ∧
    assetPHOTO.format = "JPG" ∧ "JPG" ≠ "jpg" :=
  ⟨rfl, rfl, rfl, by decide⟩

/-- Claim C5 (amended): every built asset's format attribute equals the
file's extension without the leading dot, with its original case preserved
(no lowercasing). -/
theorem c5_amended_format_is_ext_without_dot_case_preserved
    (src : List String) (fs : DecodeFn) (m : List (String × List String)) (k : Nat)
    (entries : List Asset) (a : Asset)
    (h : generateVottEntries src fs m k = .ok entries) (ha : a ∈ entries) :
    a.format = trimDot (extOf a.name) := by
  induction m generalizing k entries with
  | nil =>
    simp only [generateVottEntries, Except.ok.injEq] at h
    rw [← h] at ha
    simp at ha
  | cons e rest ih =>
    unfold generateVottEntries at h
    cases hgf : generateVottFiles src fs e.1 e.2 k with
    | error p => rw [hgf] at h; cases h
    | ok pr =>
      obtain ⟨as, k2⟩ := pr
      rw [hgf] at h
      dsimp only at h
      cases hga : generateVottEntries src fs rest k2 with
      | error p => rw [hga] at h; cases h
      | ok bs =>
        rw [hga] at h
        simp only [Except.ok.injEq] at h
        rw [← h] at ha
        rcases List.mem_append.mp ha with h1 | h2
        · exact generateVottFiles_format src fs e.1 e.2 k as k2 hgf a h1
        · exact ih k2 bs hga h2

/-- Witness for C5's amended theorem at the counterexample's input. -/
theorem c5_witness : assetPHOTO.format = trimDot (extOf assetPHOTO.name) :=
  c5_amended_format_is_ext_without_dot_case_preserved ["d"] fsJPG
    [("lbl", ["PHOTO.JPG"])] 0 [assetPHOTO] assetPHOTO rfl (by decide)

/-- Claim C6 (counterexample): only `-v` (and `--v`) is a defined flag; an
invocation carrying `--version` is rejected by flag parsing — the run exits
with code 2 and never prints the version string, contradicting the claimed
exit code 0. -/
theorem c6_counterexample_doubledash_version_exits_2 :
    (mainOutcome ["--version"] envSimple).exitCode = 2 ∧
    Version ∉ (mainOutcome ["--version"] envSimple).printed := by
  decide

/-- Claim C6 (amended): whenever flag parsing succeeds with the `v` flag set
(e.g. `-v`, `--v`, `-v=true`), the program prints the fixed version string
and exits with code 0, independent of the environment — no path validation,
scan, build, or write happens. -/
theorem c6_amended_v_flag_prints_version_and_exits_0
    (args : List String) (env : Env) (hb : Bool) (rest : List String)
    (hp : parseFlags args = .ok true hb rest) :
    mainOutcome args env = { exitCode := 0, printed := [Version], written := none } := by
  simp [mainOutcome, hp]

/-- Witness for C6's amended theorem at `-v`. -/
theorem c6_witness : mainOutcome ["-v"] envSimple =
    { exitCode := 0, printed := [Version], written := none } :=
  c6_amended_v_flag_prints_version_and_exits_0 ["-v"] envSimple false [] rfl

theorem nodup_keys_buildLabelsFrom (l : List (String × List String))
    (m : List (String × List String)) (hm : (m.map (fun p => p.1)).Nodup) :
    ((buildLabelsFrom m l).map (fun p => p.1)).Nodup := by
  induction l generalizing m with
  | nil => exact hm
  | cons e rest ih =>
    simp only [buildLabelsFrom]
    by_cases hi : (listImages e.2).isEmpty
    · rw [if_pos hi]; exact ih m hm
    · rw [if_neg hi]; exact ih _ (nodup_keys_insertOverwrite m e.1 _ hm)

theorem generateVottFiles_label (src : List String) (fs : DecodeFn) (label : String)
    (imgs : List String) : ∀ (k : Nat) (as : List Asset) (k2 : Nat),
    generateVottFiles src fs label imgs k = .ok (as, k2) →
    ∀ a ∈ as, a.label = label := by
  induction imgs with
  | nil =>
    intro k as k2 h a ha
    simp only [generateVottFiles, Except.ok.injEq, Prod.mk.injEq] at h
    rw [← h.1] at ha
    simp at ha
  | cons f rest ih =>
    intro k as k2 h a ha
    unfold generateVottFiles at h
    cases hwh : fs (src ++ [label, f]) with
    | none => rw [hwh] at h; cases h
    | some wh =>
      rw [hwh] at h
      cases hrec : generateVottFiles src fs label rest (k + 1) with
      | error e => rw [hrec] at h; cases h
      | ok pr =>
        obtain ⟨as', k2'⟩ := pr
        rw [hrec] at h
        simp only [Except.ok.injEq, Prod.mk.injEq] at h
        rw [← h.1] at ha
        rcases List.mem_cons.mp ha with h1 | h2
        · subst h1; rfl
        · exact ih (k + 1) as' k2' hrec a h2

theorem generateVottEntries_label (src : List String) (fs : DecodeFn)
    (m : List (String × List String)) : ∀ (k : Nat) (entries : List Asset),
    generateVottEntries src fs m k = .ok entries →
    ∀ a ∈ entries, a.label ∈ m.map (fun e => e.1) := by
  induction m with
  | nil =>
    intro k entries h a ha
    simp only [generateVottEntries, Except.ok.injEq] at h
    rw [← h] at ha
    simp at ha
  | cons e rest ih =>
    intro k entries h a ha
    unfold generateVottEntries at h
    cases hgf : generateVottFiles src fs e.1 e.2 k with
    | error p => rw [hgf] at h; cases h
    | ok pr =>
      obtain ⟨as, k2⟩ := pr
      rw [hgf] at h
      dsimp only at h
      cases hga : generateVottEntries src fs rest k2 with
      | error p => rw [hga] at h; cases h
      | ok bs =>
        rw [hga] at h
        simp only [Except.ok.injEq] at h
        rw [← h] at ha
        rcases List.mem_append.mp ha with h1 | h2
        · have := generateVottFiles_label src fs e.1 e.2 k as k2 hgf a h1
          rw [this]
          exact List.mem_map.mpr ⟨e, List.mem_cons_self _ _, rfl⟩
        · rcases List.mem_map.mp (ih k2 bs hga a h2) with ⟨d, hd, hde⟩
          exact List.mem_map.mpr ⟨d, List.mem_cons_of_mem _ hd, hde⟩

theorem count_tag_one (labels : List String) (x : String)
    (hn : labels.Nodup) (hx : x ∈ labels) :
    ((labels.map mkTag).filter (fun t => t.name == x)).length = 1 := by
  have h1 : (labels.map mkTag).filter (fun t => t.name == x) =
      (labels.filter ((fun t : Tag => t.name == x) ∘ mkTag)).map mkTag :=
    List.filter_map mkTag labels
  rw [h1, List.length_map]
  have h2 : ((fun t : Tag => t.name == x) ∘ mkTag) = fun l => l == x := rfl
  rw [h2, ← List.countP_eq_length_filter]
  have := List.count_eq_one_of_mem hn hx
  simpa [List.count] using this

theorem runPipeline_written (src : List String) (fsys : FileSys) (fs : DecodeFn)
    (w : Bool) (m : VottJsonModel)
    (h : (runPipeline src fsys fs w).written = some m) :
    ∃ entries, generateVottEntries src fs (findImagesMap fsys) 0 = .ok entries ∧
      m = writeVottJSON entries ((findImagesMap fsys).map (fun e => e.1)) entries.length := by
  unfold runPipeline at h
  by_cases he : (findImagesMap fsys).isEmpty
  · rw [if_pos he] at h; cases h
  · rw [if_neg he] at h
    dsimp only at h
    cases hg : generateVottEntries src fs (findImagesMap fsys) 0 with
    | error p => rw [hg] at h; cases h
    | ok entries =>
      rw [hg] at h
      dsimp only at h
      by_cases hw : w = true
      · rw [if_pos hw] at h
        exact ⟨entries, rfl, by simpa using h.symm⟩
      · rw [if_neg hw] at h; cases h

theorem mainOutcome_written (args : List String) (env : Env) (m : VottJsonModel)
    (h : (mainOutcome args env).written = some m) :
    ∃ src fsys entries,
      generateVottEntries src env.fsAt (findImagesMap fsys) 0 = .ok entries ∧
      m = writeVottJSON entries ((findImagesMap fsys).map (fun e => e.1)) entries.length := by
  unfold mainOutcome at h
  cases hp : parseFlags args with
  | badFlag => rw [hp] at h; cases h
  | helpRequested => rw [hp] at h; cases h
  | ok v hb rest =>
    rw [hp] at h
    dsimp only at h
    cases v with
    | true => simp at h
    | false =>
      cases hb with
      | true => simp at h
      | false =>
        simp only [Bool.false_eq_true, if_false] at h
        by_cases h1 : env.isDir (resolveImagesPath rest) = true
        · rw [if_pos h1] at h
          by_cases h2 : env.isDir (dirOf (resolveAnnotationsFile rest)) = true
          · rw [if_pos h2] at h
            obtain ⟨entries, hg, hm⟩ := runPipeline_written _ _ _ _ _ h
            exact ⟨_, _, entries, hg, hm⟩
          · rw [if_neg h2] at h; cases h
        · rw [if_neg h1] at h; cases h

theorem writeVott_label_tags (entries : List Asset) (labels : List String) (k : Nat)
    (hn : labels.Nodup) (hl : ∀ a ∈ entries, a.label ∈ labels) :
    (((writeVottJSON entries labels k).tags).map Tag.name).Nodup ∧
    ∀ e ∈ (writeVottJSON entries labels k).assets,
      (((writeVottJSON entries labels k).tags).filter
        (fun t => t.name == e.2.asset.label)).length = 1 := by
  have htags : (writeVottJSON entries labels k).tags = labels.map mkTag := rfl
  constructor
  · rw [htags]
    have : (labels.map mkTag).map Tag.name = labels := by
      rw [List.map_map]
      exact List.map_id labels
    rw [this]
    exact hn
  · intro e he
    have hassets : (writeVottJSON entries labels k).assets = insertAssets entries k [] := rfl
    rw [hassets] at he
    rcases mem_insertAssets entries k [] e he with ⟨j, a, hain, hq⟩ | hfalse
    · have hea : e.2.asset = a := by rw [hq]; rfl
      rw [htags, hea]
      exact count_tag_one labels a.label hn (hl a hain)
    · simp at hfalse

/-- Claim C7: in every document the pipeline writes, tag names are pairwise
distinct and each stored asset's label equals the name of exactly one tag in
the document's tag list. -/
theorem c7_each_asset_label_matches_exactly_one_tag
    (args : List String) (env : Env) (m : VottJsonModel)
    (h : (mainOutcome args env).written = some m) :
    ((m.tags).map Tag.name).Nodup ∧
    ∀ e ∈ m.assets, ((m.tags).filter (fun t => t.name == e.2.asset.label)).length = 1 := by
  obtain ⟨src, fsys, entries, hg, hm⟩ := mainOutcome_written args env m h
  have hn : ((findImagesMap fsys).map (fun e => e.1)).Nodup :=
    nodup_keys_buildLabelsFrom (scannedDirs fsys) [] (by simp)
  have hl : ∀ a ∈ entries, a.label ∈ (findImagesMap fsys).map (fun e => e.1) :=
    generateVottEntries_label src env.fsAt (findImagesMap fsys) 0 entries hg
  rw [hm]
  exact writeVott_label_tags entries _ entries.length hn hl

/-- Witness for C7 at a concrete written document. -/
theorem c7_witness :
    ((((mainOutcome [] env7).written.getD emptyModel).tags).map Tag.name).Nodup ∧
    ∀ e ∈ ((mainOutcome [] env7).written.getD emptyModel).assets,
      (((((mainOutcome [] env7).written.getD emptyModel)).tags).filter
        (fun t => t.name == e.2.asset.label)).length = 1 :=
  c7_each_asset_label_matches_exactly_one_tag [] env7
    ((mainOutcome [] env7).written.getD emptyModel) rfl

theorem keys_insertAssets (assets : List Asset) : ∀ (k : Nat) (m : List (String × AssetDetail)),
    (assets.map Asset.id).Nodup → (∀ a ∈ assets, a.id ∉ m.map (fun p => p.1)) →
    (insertAssets assets k m).map (fun p => p.1) =
      m.map (fun p => p.1) ++ assets.map Asset.id := by
  induction assets with
  | nil => intro k m _ _; simp [insertAssets]
  | cons a rest ih =>
    intro k m hn hf
    simp only [insertAssets]
    have ha : a.id ∉ m.map (fun p => p.1) := hf a (List.mem_cons_self _ _)
    have hkeys := keys_insertOverwrite_not_mem m a.id (mkDetail (uuid k) a) ha
    rw [List.map_cons] at hn
    have hncons := List.nodup_cons.mp hn
    have hfresh : ∀ b ∈ rest,
        b.id ∉ (insertOverwrite m a.id (mkDetail (uuid k) a)).map (fun p => p.1) := by
      intro b hb
      rw [hkeys]
      simp only [List.mem_append, List.mem_singleton]
      rintro (hbm | hba)
      · exact hf b (List.mem_cons_of_mem _ hb) hbm
      · exact hncons.1 (hba ▸ List.mem_map.mpr ⟨b, hb, rfl⟩)
    rw [ih (k + 1) _ hncons.2 hfresh, hkeys]
    simp

/-- Claim C8 (counterexample): with two supplied assets sharing one id, the
written document holds a single asset entry, so parsing it back yields asset
count 1, not the supplied count 2. -/
theorem c8_counterexample_duplicate_ids_collapse :
    [assetDup, assetDup].length = 2 ∧
    parsedAssetCount (encodeModel (writeVottJSON [assetDup, assetDup] ["class"] 0)) =
      some 1 :=
  ⟨rfl, rfl⟩

/-- Claim C8 (amended): for every list of assets with pairwise-distinct ids
and every tag list, writing the document and parsing it back yields exactly
the supplied asset count and tag count. -/
theorem c8_amended_roundtrip_counts_with_distinct_ids
    (assets : List Asset) (tags : List String) (k : Nat)
    (h : (assets.map Asset.id).Nodup) :
    parsedAssetCount (encodeModel (writeVottJSON assets tags k)) = some assets.length ∧
    parsedTagCount (encodeModel (writeVottJSON assets tags k)) = some tags.length := by
  constructor
  · have hfield : lookupField (encodeModel (writeVottJSON assets tags k)) "assets" =
        some (.obj ((sortByKey (insertAssets assets k [])).map
          (fun p => (p.1, encodeDetail p.2)))) := rfl
    unfold parsedAssetCount
    rw [hfield]
    show some (((((sortByKey (insertAssets assets k [])).map
      (fun p => (p.1, encodeDetail p.2))).map (fun p => p.1)).dedup).length) =
      some assets.length
    have hmm : (((sortByKey (insertAssets assets k [])).map
        (fun p => (p.1, encodeDetail p.2))).map (fun p => p.1)) =
        (sortByKey (insertAssets assets k [])).map (fun p => p.1) := by
      rw [List.map_map]; rfl
    rw [hmm]
    have hperm : List.Perm (sortByKey (insertAssets assets k []))
        (insertAssets assets k []) := List.perm_insertionSort _ _
    have hpermkeys := hperm.map (fun p : String × AssetDetail => p.1)
    have hkeys : (insertAssets assets k []).map (fun p => p.1) = assets.map Asset.id := by
      simpa using keys_insertAssets assets k [] h (by simp)
    have hnodup : ((sortByKey (insertAssets assets k [])).map (fun p => p.1)).Nodup := by
      refine (hpermkeys.symm).nodup ?_
      rw [hkeys]
      exact h
    rw [hnodup.dedup, hpermkeys.length_eq, hkeys, List.length_map]
  · unfold parsedTagCount
    have hfield : lookupField (encodeModel (writeVottJSON assets tags k)) "tags" =
        some (.arr ((tags.map mkTag).map encodeTag)) := rfl
    rw [hfield]
    simp

/-- Witness for C8's amended theorem at a one-asset document. -/
theorem c8_witness :
    parsedAssetCount (encodeModel (writeVottJSON [assetDup] ["class"] 0)) =
      some [assetDup].length ∧
    parsedTagCount (encodeModel (writeVottJSON [assetDup] ["class"] 0)) =
      some ["class"].length :=
  c8_amended_roundtrip_counts_with_distinct_ids [assetDup] ["class"] 0 (by decide)

theorem generateVottFiles_ne_ok (src : List String) (fs : DecodeFn) (label : String)
    (imgs : List String) (f : String) (hf : f ∈ imgs)
    (hfail : fs (src ++ [label, f]) = none) :
    ∀ (k : Nat) (pr : List Asset × Nat), generateVottFiles src fs label imgs k ≠ .ok pr := by
  induction imgs with
  | nil => cases hf
  | cons g rest ih =>
    intro k pr
    unfold generateVottFiles
    cases hwh : fs (src ++ [label, g]) with
    | none => intro hc; cases hc
    | some wh =>
      rcases List.mem_cons.mp hf with h1 | h2
      · subst h1; rw [hfail] at hwh; cases hwh
      · cases hrec : generateVottFiles src fs label rest (k + 1) with
        | error e => intro hc; cases hc
        | ok pr2 => exact absurd hrec (ih h2 (k + 1) pr2)

theorem generateVottEntries_error_exists (src : List String) (fs : DecodeFn)
    (m : List (String × List String)) (l : String) (is : List String) (f : String)
    (hm : (l, is) ∈ m) (hf : f ∈ is) (hfail : fs (src ++ [l, f]) = none) :
    ∀ k, ∃ e, generateVottEntries src fs m k = .error e := by
  induction m with
  | nil => cases hm
  | cons d rest ih =>
    intro k
    unfold generateVottEntries
    cases hgf : generateVottFiles src fs d.1 d.2 k with
    | error p => exact ⟨p, rfl⟩
    | ok pr =>
      obtain ⟨as, k2⟩ := pr
      rcases List.mem_cons.mp hm with h1 | h2
      · exfalso
        have hd1 : d.1 = l := by rw [← h1]
        have hd2 : d.2 = is := by rw [← h1]
        rw [hd1, hd2] at hgf
        exact generateVottFiles_ne_ok src fs l is f hf hfail k (as, k2) hgf
      · rcases ih h2 k2 with ⟨e, he⟩
        exact ⟨e, by dsimp only; rw [he]⟩

/-- Claim C9: a qualifying image in a directory nested two or more levels
below the source root is discovered (its directory's base name becomes a
label), but the builder opens sourcePath/base/file, not the file's actual
location sourcePath/<full path>/file; when nothing exists at the computed
path, the whole build fails even though every discovered file exists. -/
theorem c9_nested_dir_asset_path_wrong_and_build_fails
    (src : List String) (fsys : FileSys) (dims : List String → Nat × Nat)
    (p : List String) (files : List String) (f : String) (imgs : List String)
    (hd : (p, files) ∈ fsys) (hdepth : 2 ≤ p.length) (hf : f ∈ listImages files)
    (hm : lookupAssoc (findImagesMap fsys) (lastName p) = some imgs) (hfi : f ∈ imgs)
    (hmiss : fsOf src fsys dims (src ++ [lastName p, f]) = none) :
    src ++ (p ++ [f]) ≠ src ++ [lastName p, f] ∧
    fsOf src fsys dims (src ++ (p ++ [f])) = some (dims (p ++ [f])) ∧
    ∃ e, generateVottEntries src (fsOf src fsys dims) (findImagesMap fsys) 0 = .error e := by
  refine ⟨?_, ?_, ?_⟩
  · intro heq
    have := congrArg List.length heq
    simp [List.length_append] at this
    omega
  · have hmem : p ++ [f] ∈ filePaths fsys := by
      unfold filePaths
      refine List.mem_flatMap.mpr ⟨(p, files), hd, ?_⟩
      exact List.mem_map.mpr ⟨f, List.mem_of_mem_filter hf, rfl⟩
    simp [fsOf, List.take_left, List.drop_left, hmem]
  · exact generateVottEntries_error_exists src (fsOf src fsys dims) (findImagesMap fsys)
      (lastName p) imgs f (lookupAssoc_mem _ _ _ hm) hfi hmiss 0

/-- Witness for C9: `a/b/x.jpg` is discovered under label `b`, yet the
builder's path `d/b/x.jpg` has no file. -/
theorem c9_witness :
    ["d"] ++ (["a", "b"] ++ ["x.jpg"]) ≠ ["d"] ++ [lastName ["a", "b"], "x.jpg"] ∧
    fsOf ["d"] fsys9 dims9 (["d"] ++ (["a", "b"] ++ ["x.jpg"])) =
      some (dims9 (["a", "b"] ++ ["x.jpg"])) ∧
    ∃ e, generateVottEntries ["d"] (fsOf ["d"] fsys9 dims9) (findImagesMap fsys9) 0 =
      .error e :=
  c9_nested_dir_asset_path_wrong_and_build_fails ["d"] fsys9 dims9 ["a", "b"]
    ["x.jpg"] "x.jpg" ["x.jpg"] (by decide) (by decide) (by decide) rfl
    (by decide) rfl

theorem buildLabelsFrom_append (xs ys : List (String × List String))
    (m : List (String × List String)) :
    buildLabelsFrom m (xs ++ ys) = buildLabelsFrom (buildLabelsFrom m xs) ys := by
  induction xs generalizing m with
  | nil => rfl
  | cons e rest ih =>
    simp only [List.cons_append, buildLabelsFrom]
    exact ih _

theorem lookup_buildLabelsFrom_no_touch (l : List (String × List String)) (b : String)
    (m : List (String × List String)) (h : ∀ e ∈ l, e.1 = b → listImages e.2 = []) :
    lookupAssoc (buildLabelsFrom m l) b = lookupAssoc m b := by
  induction l generalizing m with
  | nil => rfl
  | cons e rest ih =>
    simp only [buildLabelsFrom]
    by_cases hi : (listImages e.2).isEmpty
    · rw [if_pos hi]
      exact ih _ (fun d hd => h d (List.mem_cons_of_mem _ hd))
    · rw [if_neg hi]
      have heb : e.1 ≠ b := by
        intro hc
        exact hi (by simp [h e (List.mem_cons_self _ _) hc])
      rw [ih _ (fun d hd => h d (List.mem_cons_of_mem _ hd))]
      exact lookupAssoc_insertOverwrite_ne m e.1 b _ heb

/-- Claim C10: when two walked directories share a base name and each
directly contains images, the scanner's map binds that base name to the
later-visited directory's image list only; the earlier directory's (distinct)
image list is absent from the result. -/
theorem c10_basename_collision_last_wins
    (fsys : FileSys) (l1 l2 l3 : List (String × List String)) (b : String)
    (fs1 fs2 : List String)
    (hv : scannedDirs fsys = l1 ++ (b, fs1) :: l2 ++ (b, fs2) :: l3)
    (h1 : listImages fs1 ≠ []) (h2 : listImages fs2 ≠ [])
    (h3 : ∀ e ∈ l3, e.1 = b → listImages e.2 = [])
    (hne : listImages fs1 ≠ listImages fs2) :
    lookupAssoc (findImagesMap fsys) b = some (listImages fs2) ∧
    lookupAssoc (findImagesMap fsys) b ≠ some (listImages fs1) := by
  have hfim : findImagesMap fsys = buildLabelsFrom [] (scannedDirs fsys) := rfl
  have hsplit : l1 ++ (b, fs1) :: l2 ++ (b, fs2) :: l3 =
      ((l1 ++ (b, fs1) :: l2) ++ [(b, fs2)]) ++ l3 := by simp
  have hlk : lookupAssoc (findImagesMap fsys) b = some (listImages fs2) := by
    rw [hfim, hv, hsplit, buildLabelsFrom_append, buildLabelsFrom_append]
    rw [lookup_buildLabelsFrom_no_touch l3 b _ h3]
    have h2' : ¬ (listImages fs2).isEmpty := by simpa [List.isEmpty_iff] using h2
    simp only [buildLabelsFrom]
    rw [if_neg h2']
    exact lookupAssoc_insertOverwrite_self _ _ _
  refine ⟨hlk, ?_⟩
  rw [hlk]
  intro hc
  injection hc with hc'
  exact hne hc'.symm

/-- Witness for C10: directories `a/x` and `b/x`; the map keeps only
`b/x`'s image. -/
theorem c10_witness :
    lookupAssoc (findImagesMap fsys10) "x" = some (listImages ["2.jpg"]) ∧
    lookupAssoc (findImagesMap fsys10) "x" ≠ some (listImages ["1.jpg"]) :=
  c10_basename_collision_last_wins fsys10 [("a", [])] [("b", [])] [] "x"
    ["1.jpg"] ["2.jpg"] rfl (by decide) (by decide) (by decide) (by decide)

end Votter
